import Mathlib

/-!
Shallow embedding of the end-of-block order-book arbitrage filler
(`ingest/usecase/plugins/orderbookfiller/ordebook_filler_ingest_plugin.go`).

Conventions of the embedding:
* `osmomath.Int` is modelled as `Int`; `osmomath.Dec` values appear only in two
  places of the plugin, both of which are exact in 18-decimal fixed point:
  `proposed * 1.05` truncated toward zero becomes `Int.tdiv (21 * p) 20`, and
  `Ceil((low + high) / 2)` becomes `Int.fdiv (low + high + 1) 2`
  (the ceiling of `a / 2` equals the floor of `(a + 1) / 2` for every integer).
* external collaborators (pool registry, tick fetcher, balance and price
  services, the router used by `validateArb`, simulation and broadcast) are
  oracle fields of `PluginEnv`; goroutine fan-out is sequentialized in
  program order, which is adequate for the claims settled here since none of
  them depends on interleaving.
* observable side effects (RPC calls, log lines, executions) are emitted as a
  trace of `TraceEvent` values returned alongside each result.
-/

/-- Result of the pool registry call, mirroring `domain.CanonicalOrderBooksResult`. -/
structure CanonicalOrderBooksResult where
  PoolID : Nat
  Base : String
  Quote : String
  ContractAddress : String
  deriving DecidableEq, Repr

/-- Modelled from the spec: the Message Context package
(`context/msg`, not among the sources). Carries the target pool, the input
amount, the derived max-fee-cap profitability metric, the low-value
classification and the previously computed adjusted gas estimate (sections 3
and 4.5 of the spec). -/
structure MsgContext where
  poolID : Nat
  amountIn : Int
  maxFeeCap : Int
  lowValue : Bool
  adjustedGas : Nat
  deriving DecidableEq, Repr

/-- Modelled from the spec: the Transaction Context package (`context/tx`, not
among the sources). It partitions accepted messages into the pending batch and
the used/logged pool IDs, and keeps a running adjusted gas total (section 3 of
the spec). -/
structure TxContext where
  batchMsgs : List MsgContext
  usedPoolIDs : List Nat
  adjustedGasUsedTotal : Nat
  deriving DecidableEq, Repr

/-- Modelled from the spec: `txctx.New` creates an empty transaction context. -/
def TxContext.New : TxContext :=
  { batchMsgs := [], usedPoolIDs := [], adjustedGasUsedTotal := 0 }

/-- Modelled from the spec: `txctx.AddMsg(msg, flag)`. The call-site comment in
the plugin states that with a true flag the message is added to the bundled
(pending batch) context and with a false flag the pool is only logged as used;
a bundled message also contributes its adjusted gas to the running total. -/
def TxContext.AddMsg (t : TxContext) (m : MsgContext) (bundled : Bool) : TxContext :=
  if bundled then
    { t with
      batchMsgs := t.batchMsgs ++ [m]
      adjustedGasUsedTotal := t.adjustedGasUsedTotal + m.adjustedGas }
  else
    { t with usedPoolIDs := t.usedPoolIDs ++ [m.poolID] }

/-- Modelled from the spec: `txctx.UpdateAdjustedGasTotal`. -/
def TxContext.UpdateAdjustedGasTotal (t : TxContext) (n : Nat) : TxContext :=
  { t with adjustedGasUsedTotal := n }

/-- Modelled from the spec: `txctx.RankAndFilterMsgs` is a black-box
deterministic rank-and-filter policy over the pending batch (section 4.6);
the policy itself is an oracle parameter. -/
def TxContext.RankAndFilterMsgs (t : TxContext)
    (rank : List MsgContext → List MsgContext) : TxContext :=
  { t with batchMsgs := rank t.batchMsgs }

/-- Observable events emitted by the plugin: external calls and log lines. -/
inductive TraceEvent where
  | tickFetch (poolID : Nat)
  | logErrFetchTicks (poolID : Nat)
  | logAlreadyInProgress
  | balancesFetch
  | pricesFetch
  | logSkipInsufficientBalance (poolID : Nat)
  | logErrProcessOrderbook
  | logWarnClampAsk (poolID : Nat)
  | logWarnClampBid (poolID : Nat)
  | searchCall (poolID : Nat) (amountIn : Int) (denomIn denomOut : String)
  | logErrFailedFillAsks (poolID : Nat)
  | logPassedAsks (poolID : Nat)
  | logErrFailedFillBids (poolID : Nat)
  | logPassedBids (poolID : Nat)
  | executeCall (numMsgs : Nat)
  | logErrFillImmediate
  | logExecutedImmediate
  | simulateCall (numMsgs : Nat)
  | logErrFailedFill
  | logErrFailedFillBatch
  | logErrFillIndividualMsg
  | logProcessedEndBlock (blockHeight : Nat)
  deriving DecidableEq, Repr

/-- Oracles for the external collaborators of section 6 of the spec and for
repository code that is not among the sources:
`validateArb` (route simulation producing a scored Message Context, spec
section 4.5 step 4), `validateUserBalances` (eligibility check, section 4.3),
`getFillableOrders` (fillable ask/bid amounts, section 4.4) and
`rankAndFilter` (section 4.6). Errors are strings. -/
structure PluginEnv where
  registry : Except String (List CanonicalOrderBooksResult)
  allBalances : Except String (String → Int)
  getPrices : List String → Except String Unit
  blockCtxNew : Option String
  validateUserBalances : String → String → Option String
  getFillableOrders : Nat → Except String (Int × Int)
  validateArb : Int → String → String → Nat → Except String MsgContext
  rankAndFilter : List MsgContext → List MsgContext
  simulateMsgs : List MsgContext → Except String Nat
  executeTx : List MsgContext → Except String Unit

/-- Constant `maxRecursionAttemptsArbSearch` from the plugin. -/
def maxRecursionAttemptsArbSearch : Nat := 15

/-- Result of `tryValidate`; the Go function returns the winning message
context, the winning amount and an error. The `rounds` field additionally
counts how many `validateArb` rounds the search performed. -/
structure SearchResult where
  ctx : MsgContext
  amount : Int
  err : Option String
  rounds : Nat
  deriving Repr

/-- Translation of `tryValidate`: bounded recursive bisection between
`amountInLow` (already validated, with context `lowMsgCtx`) and
`amountInHigh`. `mid` is `Ceil((low + high) / 2)` in the source, rendered as
`Int.fdiv (low + high + 1) 2`. -/
def tryValidate (env : PluginEnv) (denomIn denomOut : String) (orderBookID : Nat) :
    Int → Int → MsgContext → Nat → SearchResult
  | amountInLow, _amountInHigh, lowMsgCtx, 0 =>
    { ctx := lowMsgCtx, amount := amountInLow, err := none, rounds := 0 }
  | amountInLow, amountInHigh, lowMsgCtx, fuel + 1 =>
    let mid := Int.fdiv (amountInLow + amountInHigh + 1) 2
    match env.validateArb mid denomIn denomOut orderBookID with
    | .ok midMsgCtx =>
      if lowMsgCtx.maxFeeCap ≤ midMsgCtx.maxFeeCap then
        let r := tryValidate env denomIn denomOut orderBookID mid amountInHigh midMsgCtx fuel
        { ctx := r.ctx, amount := r.amount, err := r.err, rounds := r.rounds + 1 }
      else
        let r := tryValidate env denomIn denomOut orderBookID amountInLow mid lowMsgCtx fuel
        if r.err = none ∧ lowMsgCtx.maxFeeCap ≤ r.ctx.maxFeeCap then
          { ctx := r.ctx, amount := r.amount, err := none, rounds := r.rounds + 1 }
        else
          { ctx := lowMsgCtx, amount := amountInLow, err := none, rounds := r.rounds + 1 }
    | .error _ =>
      let r := tryValidate env denomIn denomOut orderBookID amountInLow mid lowMsgCtx fuel
      if r.err = none ∧ lowMsgCtx.maxFeeCap ≤ r.ctx.maxFeeCap then
        { ctx := r.ctx, amount := r.amount, err := none, rounds := r.rounds + 1 }
      else
        { ctx := lowMsgCtx, amount := amountInLow, err := none, rounds := r.rounds + 1 }

/-- Error prefix used by `fillImmediate` when wrapping the execution error. -/
def errImmediateWrap : String := "failed to execute immediate fill transaction: "

/-- Translation of `fillImmediate`: builds a fresh single-message transaction
context, inflates the previously computed gas estimate by ten percent, and
executes without re-simulation. -/
def fillImmediate (env : PluginEnv) (msgCtx : MsgContext) :
    Option String × List TraceEvent :=
  let immediateTxCtx := TxContext.New.AddMsg msgCtx true
  let newAdjustedGasUsedTotal := immediateTxCtx.adjustedGasUsedTotal * 110 / 100
  let immediateTxCtx := immediateTxCtx.UpdateAdjustedGasTotal newAdjustedGasUsedTotal
  match env.executeTx immediateTxCtx.batchMsgs with
  | .error e =>
    (some (errImmediateWrap ++ e), [TraceEvent.executeCall immediateTxCtx.batchMsgs.length])
  | .ok _ =>
    (none,
      [TraceEvent.executeCall immediateTxCtx.batchMsgs.length,
       TraceEvent.logExecutedImmediate])

/-- Translation of `computePerfectArbAmountIfExists`. Validates the proposed
amount, binary-searches upward with ceiling `proposed * 1.05` (truncated), and
on success executes high-value winners immediately, falling back to the batch
on immediate-execution failure. -/
def computePerfectArbAmountIfExists (env : PluginEnv) (txCtx : TxContext)
    (proposedAmountIn : Int) (denomIn denomOut : String) (orderBookID : Nat) :
    Int × Option String × TxContext × List TraceEvent :=
  match env.validateArb proposedAmountIn denomIn denomOut orderBookID with
  | .error e => (0, some e, txCtx, [])
  | .ok msgCtx0 =>
    let amountInHigh := Int.tdiv (21 * proposedAmountIn) 20
    let r := tryValidate env denomIn denomOut orderBookID proposedAmountIn amountInHigh
      msgCtx0 maxRecursionAttemptsArbSearch
    if r.err.isSome then
      (proposedAmountIn, none, txCtx, [])
    else
      let fi :=
        if r.ctx.lowValue then (none, ([] : List TraceEvent))
        else
          let fr := fillImmediate env r.ctx
          if fr.1.isSome then (fr.1, fr.2 ++ [TraceEvent.logErrFillImmediate])
          else (fr.1, fr.2)
      (r.amount, none, txCtx.AddMsg r.ctx fi.1.isSome, fi.2)

/-- Modelled from the spec: `orderbookplugindomain.BaseDenom`, the fixed base
reference denom added to every denom set (the constant is not among the
sources; its concrete value is irrelevant to every claim). -/
def BaseDenom : String := "uosmo"

/-- Insertion into the key set of a Go map, keeping first-insertion order as
the deterministic representative of map iteration order. -/
def insertDenom (acc : List String) (d : String) : List String :=
  if d ∈ acc then acc else acc ++ [d]

/-- Accumulates base and quote denoms of each canonical order book, mirroring
the map-filling loop of `getUniqueOrderbookDenoms`. -/
def collectDenoms : List CanonicalOrderBooksResult → List String → List String
  | [], acc => acc
  | ob :: rest, acc => collectDenoms rest (insertDenom (insertDenom acc ob.Base) ob.Quote)

/-- Translation of `getUniqueOrderbookDenoms`: the deduplicated union of all
base and quote denoms plus the fixed base reference denom. -/
def getUniqueOrderbookDenoms (canonicalOrderbooks : List CanonicalOrderBooksResult) :
    List String :=
  insertDenom (collectDenoms canonicalOrderbooks []) BaseDenom

/-- Translation of `fetchTicksForModifiedOrderbooks`: refreshes ticks only for
canonical order books whose pool ID is in the updated set; each failure is
logged, and the errgroup wait reports an error if any refresh failed (the
first failing pool in program order stands in for the nondeterministic first
completion). The tick fetcher is a separate collaborator passed next to the
environment. -/
def fetchTicksForModifiedOrderbooks (fetchTicks : Nat → Option String)
    (blockUpdatedPools : List Nat) :
    List CanonicalOrderBooksResult → Option String × List TraceEvent
  | [] => (none, [])
  | ob :: rest =>
    let tail := fetchTicksForModifiedOrderbooks fetchTicks blockUpdatedPools rest
    if ob.PoolID ∈ blockUpdatedPools then
      match fetchTicks ob.PoolID with
      | some e =>
        (some e, TraceEvent.tickFetch ob.PoolID :: TraceEvent.logErrFetchTicks ob.PoolID :: tail.2)
      | none => (tail.1, TraceEvent.tickFetch ob.PoolID :: tail.2)
    else tail

/-- Translation of `processOrderBook`: computes fillable amounts, clamps each
side to the wallet balance (logging a warning when clamped), then evaluates
the ask direction (quote to base) and the bid direction (base to quote); each
direction failure is logged, never propagated, and the function itself only
fails when the fillable amounts cannot be computed. A `searchCall` event
records the amount handed to each directional arb search. -/
def processOrderBook (env : PluginEnv) (balances : String → Int) (txCtx : TxContext)
    (ob : CanonicalOrderBooksResult) : Option String × TxContext × List TraceEvent :=
  match env.getFillableOrders ob.PoolID with
  | .error e => (some e, txCtx, [])
  | .ok (fillableAskAmountQuoteDenom, fillableBidAmountBaseDenom) =>
    let userBalanceQuoteDenom := balances ob.Quote
    let askAmount :=
      if userBalanceQuoteDenom < fillableAskAmountQuoteDenom then userBalanceQuoteDenom
      else fillableAskAmountQuoteDenom
    let evClampAsk :=
      if userBalanceQuoteDenom < fillableAskAmountQuoteDenom then
        [TraceEvent.logWarnClampAsk ob.PoolID]
      else []
    let userBalanceBaseDenom := balances ob.Base
    let bidAmount :=
      if userBalanceBaseDenom < fillableBidAmountBaseDenom then userBalanceBaseDenom
      else fillableBidAmountBaseDenom
    let evClampBid :=
      if userBalanceBaseDenom < fillableBidAmountBaseDenom then
        [TraceEvent.logWarnClampBid ob.PoolID]
      else []
    let askRes := computePerfectArbAmountIfExists env txCtx askAmount ob.Quote ob.Base ob.PoolID
    let evAsk :=
      if askRes.2.1.isSome then [TraceEvent.logErrFailedFillAsks ob.PoolID]
      else [TraceEvent.logPassedAsks ob.PoolID]
    let bidRes := computePerfectArbAmountIfExists env askRes.2.2.1 bidAmount ob.Base ob.Quote ob.PoolID
    let evBid :=
      if bidRes.2.1.isSome then [TraceEvent.logErrFailedFillBids ob.PoolID]
      else [TraceEvent.logPassedBids ob.PoolID]
    (none, bidRes.2.2.1,
      evClampAsk ++ evClampBid
        ++ [TraceEvent.searchCall ob.PoolID askAmount ob.Quote ob.Base]
        ++ askRes.2.2.2 ++ evAsk
        ++ [TraceEvent.searchCall ob.PoolID bidAmount ob.Base ob.Quote]
        ++ bidRes.2.2.2 ++ evBid)

/-- Translation of `tryFill`: no-op on an empty batch; otherwise rank and
filter the pending batch, simulate it to refresh the adjusted gas total, and
execute, propagating any simulate or execute failure unchanged. -/
def tryFill (env : PluginEnv) (txCtx : TxContext) :
    Option String × TxContext × List TraceEvent :=
  if txCtx.batchMsgs.length = 0 then (none, txCtx, [])
  else
    let txCtx1 := txCtx.RankAndFilterMsgs env.rankAndFilter
    let sdkMsgs := txCtx1.batchMsgs
    match env.simulateMsgs sdkMsgs with
    | .error e => (some e, txCtx1, [TraceEvent.simulateCall sdkMsgs.length])
    | .ok adjustedGasAmount =>
      let txCtx2 := txCtx1.UpdateAdjustedGasTotal adjustedGasAmount
      match env.executeTx txCtx2.batchMsgs with
      | .error e =>
        (some e, txCtx2,
          [TraceEvent.simulateCall sdkMsgs.length, TraceEvent.executeCall txCtx2.batchMsgs.length])
      | .ok _ =>
        (none, txCtx2,
          [TraceEvent.simulateCall sdkMsgs.length, TraceEvent.executeCall txCtx2.batchMsgs.length])

/-- Per-pool step of the fan-out loop of `ProcessEndBlock`: the eligibility
check skips and logs ineligible pools before launching a worker, and the
collection loop logs any per-pool error carried back on the result channel. -/
def processPoolsStep (env : PluginEnv) (balances : String → Int)
    (acc : TxContext × List TraceEvent) (ob : CanonicalOrderBooksResult) :
    TxContext × List TraceEvent :=
  match env.validateUserBalances ob.Base ob.Quote with
  | some _ => (acc.1, acc.2 ++ [TraceEvent.logSkipInsufficientBalance ob.PoolID])
  | none =>
    let r := processOrderBook env balances acc.1 ob
    (r.2.1, acc.2 ++ r.2.2 ++ (if r.1.isSome then [TraceEvent.logErrProcessOrderbook] else []))

/-- Single fallback iteration of `ProcessEndBlock` step 11: a fresh
single-message transaction context is built exactly as in the source, but the
source then calls `tryFill` on the block context, so the fill operates on the
shared batch context and the fresh context goes unused. -/
def fallbackStep (env : PluginEnv) (acc : TxContext × List TraceEvent)
    (msg : MsgContext) : TxContext × List TraceEvent :=
  let curTxCtx := TxContext.New.AddMsg msg false
  let r := tryFill env acc.1
  (r.2.1, acc.2 ++ r.2.2 ++ (if r.1.isSome then [TraceEvent.logErrFillIndividualMsg] else []))

/-- Body of `ProcessEndBlock` after the single-flight gate has been acquired:
denom collection, balance and price fetches, block context construction,
eligibility filtering with sequentialized per-pool workers, then the batch
fill with its per-message fallback. -/
def processEndBlockBody (env : PluginEnv) (blockHeight : Nat)
    (canonicalOrderbooks : List CanonicalOrderBooksResult) :
    Option String × TxContext × List TraceEvent :=
  let uniqueOrderBookDenoms := getUniqueOrderbookDenoms canonicalOrderbooks
  match env.allBalances with
  | .error e => (some e, TxContext.New, [TraceEvent.balancesFetch])
  | .ok balances =>
    match env.getPrices uniqueOrderBookDenoms with
    | .error e => (some e, TxContext.New, [TraceEvent.balancesFetch, TraceEvent.pricesFetch])
    | .ok _ =>
      match env.blockCtxNew with
      | some e => (some e, TxContext.New, [TraceEvent.balancesFetch, TraceEvent.pricesFetch])
      | none =>
        let fanned := canonicalOrderbooks.foldl (processPoolsStep env balances)
          (TxContext.New, [TraceEvent.balancesFetch, TraceEvent.pricesFetch])
        let originalMsgs := fanned.1.batchMsgs
        let fill := tryFill env fanned.1
        match fill.1 with
        | none =>
          (none, fill.2.1,
            fanned.2 ++ fill.2.2 ++ [TraceEvent.logProcessedEndBlock blockHeight])
        | some e =>
          if originalMsgs.length = 1 then
            (some e, fill.2.1, fanned.2 ++ fill.2.2 ++ [TraceEvent.logErrFailedFill])
          else
            let fb := originalMsgs.foldl (fallbackStep env)
              (fill.2.1, fanned.2 ++ fill.2.2 ++ [TraceEvent.logErrFailedFillBatch])
            (none, fb.1, fb.2 ++ [TraceEvent.logProcessedEndBlock blockHeight])

/-- Translation of `ProcessEndBlock`: fetch the canonical order books
(failure aborts), refresh ticks for updated pools with the returned error
discarded, then try to acquire the process-wide single-flight flag; if it is
already set, log and return nil, otherwise run the body and release the flag
on every exit path. The returned triple is the error, the final flag value
and the emitted trace. -/
def ProcessEndBlock (env : PluginEnv) (fetchTicks : Nat → Option String)
    (atomicBool : Bool) (blockHeight : Nat) (blockUpdatedPools : List Nat) :
    Option String × Bool × List TraceEvent :=
  match env.registry with
  | .error e => (some e, atomicBool, [])
  | .ok canonicalOrderbooks =>
    let ticks := fetchTicksForModifiedOrderbooks fetchTicks blockUpdatedPools canonicalOrderbooks
    if atomicBool then
      (none, atomicBool, ticks.2 ++ [TraceEvent.logAlreadyInProgress])
    else
      let body := processEndBlockBody env blockHeight canonicalOrderbooks
      (body.1, false, ticks.2 ++ body.2.2)

/-- Denoms and pools used by the concrete runs below. -/
def dBase1 : String := "atom"

def dQuote1 : String := "usdc"

def dBase2 : String := "tia"

def dQuote2 : String := "usdt"

def dAddr : String := "contractaddr"

def eArb : String := "no executable arb route"

def eSim : String := "simulation failed"

def eExec : String := "execution failed"

def eTick : String := "tick refresh failed"

def obA : CanonicalOrderBooksResult :=
  { PoolID := 1, Base := dBase1, Quote := dQuote1, ContractAddress := dAddr }

def obB : CanonicalOrderBooksResult :=
  { PoolID := 2, Base := dBase2, Quote := dQuote2, ContractAddress := dAddr }

/-- High-value candidate produced by the arb oracle of `envExecFail`. -/
def mkArbMsg (oid : Nat) (amt : Int) : MsgContext :=
  { poolID := oid, amountIn := amt, maxFeeCap := 5, lowValue := false, adjustedGas := 50 }

/-- Low-value candidate produced by the arb oracle of `envLowValue`. -/
def mkLowMsg (oid : Nat) (amt : Int) : MsgContext :=
  { poolID := oid, amountIn := amt, maxFeeCap := 5, lowValue := true, adjustedGas := 50 }

/-- Concrete environment: two pools, ask-direction arbs validate as high
value, all executions fail and batch simulation fails, so both winners land
in the batch through the immediate-fill fallback and the batch fill fails. -/
def envExecFail : PluginEnv :=
  { registry := .ok [obA, obB]
    allBalances := .ok (fun _ => 1000000)
    getPrices := fun _ => .ok ()
    blockCtxNew := none
    validateUserBalances := fun _ _ => none
    getFillableOrders := fun _ => .ok (100, 100)
    validateArb := fun amt dIn _ oid =>
      if dIn = dQuote1 ∨ dIn = dQuote2 then .ok (mkArbMsg oid amt) else .error eArb
    rankAndFilter := fun l => l
    simulateMsgs := fun _ => .error eSim
    executeTx := fun _ => .error eExec }

/-- Concrete environment whose arb oracle always yields a low-value winner. -/
def envLowValue : PluginEnv :=
  { envExecFail with
    validateArb := fun amt dIn _ oid =>
      if dIn = dQuote1 then .ok (mkLowMsg oid amt) else .error eArb }

/-- Tick fetcher that always succeeds. -/
def ticksOk : Nat → Option String := fun _ => none

/-- Tick fetcher that fails for pool 1. -/
def ticksFail1 : Nat → Option String := fun p => if p = 1 then some eTick else none

/-- Wallet with one unit of every denom, below every fillable amount used. -/
def balOne : String → Int := fun _ => 1

/-- Message counts of the simulation calls in a trace, in order. -/
def simCalls (tr : List TraceEvent) : List Nat :=
  tr.filterMap fun e =>
    match e with
    | TraceEvent.simulateCall n => some n
    | _ => none


lemma fdiv_mid_bounds {low high : Int} (h0 : 0 ≤ low) (h : low ≤ high) :
    low ≤ Int.fdiv (low + high + 1) 2 ∧ Int.fdiv (low + high + 1) 2 ≤ high ∧
      0 ≤ Int.fdiv (low + high + 1) 2 := by
  rw [Int.fdiv_eq_ediv _ (by norm_num : (0:Int) ≤ 2)]
  omega

lemma tryValidate_err_eq_none (env : PluginEnv) (dIn dOut : String) (oid : Nat) :
    ∀ (fuel : Nat) (low high : Int) (lowCtx : MsgContext),
      (tryValidate env dIn dOut oid low high lowCtx fuel).err = none := by
  intro fuel
  induction fuel with
  | zero => intro low high lowCtx; rfl
  | succ n ih =>
    intro low high lowCtx
    simp only [tryValidate]
    split
    · split
      · exact ih _ _ _
      · split <;> rfl
    · split <;> rfl

lemma tryValidate_rounds_le (env : PluginEnv) (dIn dOut : String) (oid : Nat) :
    ∀ (fuel : Nat) (low high : Int) (lowCtx : MsgContext),
      (tryValidate env dIn dOut oid low high lowCtx fuel).rounds ≤ fuel := by
  intro fuel
  induction fuel with
  | zero => intro low high lowCtx; exact Nat.le_refl 0
  | succ n ih =>
    intro low high lowCtx
    simp only [tryValidate]
    split
    · split
      · exact Nat.succ_le_succ (ih _ _ _)
      · split <;> exact Nat.succ_le_succ (ih _ _ _)
    · split <;> exact Nat.succ_le_succ (ih _ _ _)


lemma tryValidate_invariant (env : PluginEnv) (dIn dOut : String) (oid : Nat) :
    ∀ (fuel : Nat) (low high : Int) (lowCtx : MsgContext),
      0 ≤ low → low ≤ high → env.validateArb low dIn dOut oid = .ok lowCtx →
      low ≤ (tryValidate env dIn dOut oid low high lowCtx fuel).amount ∧
      (tryValidate env dIn dOut oid low high lowCtx fuel).amount ≤ high ∧
      lowCtx.maxFeeCap ≤ (tryValidate env dIn dOut oid low high lowCtx fuel).ctx.maxFeeCap ∧
      env.validateArb (tryValidate env dIn dOut oid low high lowCtx fuel).amount dIn dOut oid =
        .ok (tryValidate env dIn dOut oid low high lowCtx fuel).ctx := by
  intro fuel
  induction fuel with
  | zero =>
    intro low high lowCtx h0 hlh hv
    exact ⟨le_refl _, hlh, le_refl _, hv⟩
  | succ n ih =>
    intro low high lowCtx h0 hlh hv
    obtain ⟨hm1, hm2, hm0⟩ := fdiv_mid_bounds h0 hlh
    simp only [tryValidate]
    split
    · rename_i midCtx heq
      split
      · rename_i hc
        obtain ⟨a1, a2, a3, a4⟩ := ih (Int.fdiv (low + high + 1) 2) high midCtx hm0 hm2 heq
        exact ⟨le_trans hm1 a1, a2, le_trans hc a3, a4⟩
      · split
        · rename_i hr
          obtain ⟨b1, b2, b3, b4⟩ := ih low (Int.fdiv (low + high + 1) 2) lowCtx h0 hm1 hv
          exact ⟨b1, le_trans b2 hm2, hr.2, b4⟩
        · exact ⟨le_refl _, hlh, le_refl _, hv⟩
    · split
      · rename_i hr
        obtain ⟨b1, b2, b3, b4⟩ := ih low (Int.fdiv (low + high + 1) 2) lowCtx h0 hm1 hv
        exact ⟨b1, le_trans b2 hm2, hr.2, b4⟩
      · exact ⟨le_refl _, hlh, le_refl _, hv⟩


lemma insertDenom_mem_self (acc : List String) (d : String) : d ∈ insertDenom acc d := by
  unfold insertDenom
  split
  · assumption
  · simp

lemma insertDenom_mem_mono (acc : List String) (d x : String) (hx : x ∈ acc) :
    x ∈ insertDenom acc d := by
  unfold insertDenom
  split
  · exact hx
  · exact List.mem_append_left _ hx

lemma insertDenom_nodup (acc : List String) (d : String) (h : acc.Nodup) :
    (insertDenom acc d).Nodup := by
  unfold insertDenom
  split
  · exact h
  · rename_i hd
    simp [List.nodup_append, h, hd]

lemma collectDenoms_mono :
    ∀ (obs : List CanonicalOrderBooksResult) (acc : List String) (x : String),
      x ∈ acc → x ∈ collectDenoms obs acc := by
  intro obs
  induction obs with
  | nil => intro acc x hx; exact hx
  | cons hd tl ih =>
    intro acc x hx
    exact ih _ x (insertDenom_mem_mono _ _ _ (insertDenom_mem_mono _ _ _ hx))

lemma collectDenoms_nodup :
    ∀ (obs : List CanonicalOrderBooksResult) (acc : List String),
      acc.Nodup → (collectDenoms obs acc).Nodup := by
  intro obs
  induction obs with
  | nil => intro acc h; exact h
  | cons hd tl ih =>
    intro acc h
    exact ih _ (insertDenom_nodup _ _ (insertDenom_nodup _ _ h))

lemma collectDenoms_covers :
    ∀ (obs : List CanonicalOrderBooksResult) (acc : List String) (ob : CanonicalOrderBooksResult),
      ob ∈ obs → ob.Base ∈ collectDenoms obs acc ∧ ob.Quote ∈ collectDenoms obs acc := by
  intro obs
  induction obs with
  | nil => intro acc ob h; cases h
  | cons hd tl ih =>
    intro acc ob h
    rcases List.mem_cons.mp h with heq | htl
    · subst heq
      constructor
      · exact collectDenoms_mono tl _ _
          (insertDenom_mem_mono _ _ _ (insertDenom_mem_self _ _))
      · exact collectDenoms_mono tl _ _ (insertDenom_mem_self _ _)
    · exact ih _ ob htl

/-- C9: the unique denom set contains every base denom, every quote denom and
the fixed base reference denom, with no duplicates; `getUniqueOrderbookDenoms`
is a total pure function. -/
theorem c9_denom_set_completeness (canonicalOrderbooks : List CanonicalOrderBooksResult) :
    BaseDenom ∈ getUniqueOrderbookDenoms canonicalOrderbooks ∧
    (getUniqueOrderbookDenoms canonicalOrderbooks).Nodup ∧
    ∀ ob ∈ canonicalOrderbooks,
      ob.Base ∈ getUniqueOrderbookDenoms canonicalOrderbooks ∧
      ob.Quote ∈ getUniqueOrderbookDenoms canonicalOrderbooks := by
  refine ⟨insertDenom_mem_self _ _, ?_, ?_⟩
  · exact insertDenom_nodup _ _ (collectDenoms_nodup _ _ List.nodup_nil)
  · intro ob hob
    obtain ⟨h1, h2⟩ := collectDenoms_covers canonicalOrderbooks [] ob hob
    exact ⟨insertDenom_mem_mono _ _ _ h1, insertDenom_mem_mono _ _ _ h2⟩


/-- C10: when the initially proposed amount fails validation, the search
produces no message context, leaves the shared transaction context unchanged,
emits nothing, and returns the zero amount together with the validation
error. -/
theorem c10_invalid_proposed_is_hard_failure (env : PluginEnv) (txCtx : TxContext)
    (proposedAmountIn : Int) (denomIn denomOut : String) (orderBookID : Nat) (e : String)
    (hv : env.validateArb proposedAmountIn denomIn denomOut orderBookID = .error e) :
    computePerfectArbAmountIfExists env txCtx proposedAmountIn denomIn denomOut orderBookID =
      (0, some e, txCtx, []) := by
  unfold computePerfectArbAmountIfExists
  rw [hv]

/-- C7: `tryValidate` returns a nil error on every path, hence
`computePerfectArbAmountIfExists` errors exactly when validating the proposed
amount errors, and the degrade-to-baseline branch is dead. -/
theorem c7_tryValidate_never_errors (env : PluginEnv) (txCtx : TxContext)
    (proposedAmountIn low high : Int) (denomIn denomOut : String) (orderBookID : Nat)
    (lowCtx : MsgContext) (fuel : Nat) :
    (tryValidate env denomIn denomOut orderBookID low high lowCtx fuel).err = none ∧
    (computePerfectArbAmountIfExists env txCtx proposedAmountIn denomIn denomOut orderBookID).2.1 =
      (match env.validateArb proposedAmountIn denomIn denomOut orderBookID with
       | .error e => some e
       | .ok _ => none) := by
  refine ⟨tryValidate_err_eq_none env denomIn denomOut orderBookID fuel low high lowCtx, ?_⟩
  unfold computePerfectArbAmountIfExists
  cases hv : env.validateArb proposedAmountIn denomIn denomOut orderBookID with
  | error e => simp
  | ok m0 => simp [tryValidate_err_eq_none]

lemma computePerfect_amount_eq (env : PluginEnv) (txCtx : TxContext)
    (p : Int) (dIn dOut : String) (oid : Nat) (m0 : MsgContext)
    (hv : env.validateArb p dIn dOut oid = .ok m0) :
    (computePerfectArbAmountIfExists env txCtx p dIn dOut oid).1 =
      (tryValidate env dIn dOut oid p (Int.tdiv (21 * p) 20) m0 maxRecursionAttemptsArbSearch).amount := by
  unfold computePerfectArbAmountIfExists
  rw [hv]
  simp [tryValidate_err_eq_none]

/-- C5: when the proposed amount validates, the returned amount lies in the
interval from `proposed` to `proposed * 1.05` (expressed exactly as
`20 * amount ≤ 21 * proposed`), and the winning message context scores at
least the baseline fee cap. -/
theorem c5_binary_search_monotonicity (env : PluginEnv) (txCtx : TxContext)
    (proposedAmountIn : Int) (denomIn denomOut : String) (orderBookID : Nat) (m0 : MsgContext)
    (hp : 0 ≤ proposedAmountIn)
    (hv : env.validateArb proposedAmountIn denomIn denomOut orderBookID = .ok m0) :
    proposedAmountIn ≤
        (computePerfectArbAmountIfExists env txCtx proposedAmountIn denomIn denomOut orderBookID).1 ∧
    20 * (computePerfectArbAmountIfExists env txCtx proposedAmountIn denomIn denomOut orderBookID).1 ≤
        21 * proposedAmountIn ∧
    m0.maxFeeCap ≤
        (tryValidate env denomIn denomOut orderBookID proposedAmountIn
          (Int.tdiv (21 * proposedAmountIn) 20) m0 maxRecursionAttemptsArbSearch).ctx.maxFeeCap := by
  have h21 : (0 : Int) ≤ 21 * proposedAmountIn := by omega
  have htd : Int.tdiv (21 * proposedAmountIn) 20 = 21 * proposedAmountIn / 20 :=
    Int.tdiv_eq_ediv h21 (by norm_num)
  have hhigh : proposedAmountIn ≤ Int.tdiv (21 * proposedAmountIn) 20 := by
    rw [htd]; omega
  obtain ⟨a1, a2, a3, a4⟩ := tryValidate_invariant env denomIn denomOut orderBookID
    maxRecursionAttemptsArbSearch proposedAmountIn (Int.tdiv (21 * proposedAmountIn) 20)
    m0 hp hhigh hv
  rw [computePerfect_amount_eq env txCtx proposedAmountIn denomIn denomOut orderBookID m0 hv]
  refine ⟨a1, ?_, a3⟩
  have a2h : (tryValidate env denomIn denomOut orderBookID proposedAmountIn
      (Int.tdiv (21 * proposedAmountIn) 20) m0 maxRecursionAttemptsArbSearch).amount ≤
      21 * proposedAmountIn / 20 := htd ▸ a2
  omega

/-- C6: the recursive search always terminates within the fixed budget of 15
validation rounds, never returns an error, and whenever the initial proposed
amount validated, the returned amount and message context are themselves a
successful validation. -/
theorem c6_search_terminates_within_budget (env : PluginEnv)
    (denomIn denomOut : String) (orderBookID : Nat) (low high : Int) (lowCtx : MsgContext) :
    (tryValidate env denomIn denomOut orderBookID low high lowCtx
        maxRecursionAttemptsArbSearch).rounds ≤ maxRecursionAttemptsArbSearch ∧
    (tryValidate env denomIn denomOut orderBookID low high lowCtx
        maxRecursionAttemptsArbSearch).err = none ∧
    (0 ≤ low → low ≤ high → env.validateArb low denomIn denomOut orderBookID = .ok lowCtx →
      env.validateArb
          (tryValidate env denomIn denomOut orderBookID low high lowCtx
            maxRecursionAttemptsArbSearch).amount denomIn denomOut orderBookID =
        .ok (tryValidate env denomIn denomOut orderBookID low high lowCtx
              maxRecursionAttemptsArbSearch).ctx) := by
  refine ⟨tryValidate_rounds_le env denomIn denomOut orderBookID _ low high lowCtx,
    tryValidate_err_eq_none env denomIn denomOut orderBookID _ low high lowCtx, ?_⟩
  intro h0 hlh hv
  exact (tryValidate_invariant env denomIn denomOut orderBookID _ low high lowCtx h0 hlh hv).2.2.2


lemma fillImmediate_executes_one (env : PluginEnv) (m : MsgContext) :
    TraceEvent.executeCall 1 ∈ (fillImmediate env m).2 := by
  simp only [fillImmediate, TxContext.New, TxContext.AddMsg, TxContext.UpdateAdjustedGasTotal]
  split <;> simp

/-- C2 (amended): a non-low-value winner is executed immediately; if that
execution succeeds the winner is only recorded as a used pool, if it fails the
winner is added to the pending batch; a low-value winner is never executed and
is recorded as a used pool rather than batched, leaving the pending batch
unchanged. -/
theorem c2_immediate_fill_and_lowvalue_routing (env : PluginEnv) (txCtx : TxContext)
    (proposedAmountIn : Int) (denomIn denomOut : String) (orderBookID : Nat) (m0 : MsgContext)
    (hv : env.validateArb proposedAmountIn denomIn denomOut orderBookID = .ok m0) :
    ((tryValidate env denomIn denomOut orderBookID proposedAmountIn
        (Int.tdiv (21 * proposedAmountIn) 20) m0 maxRecursionAttemptsArbSearch).ctx.lowValue = false →
      (fillImmediate env (tryValidate env denomIn denomOut orderBookID proposedAmountIn
          (Int.tdiv (21 * proposedAmountIn) 20) m0 maxRecursionAttemptsArbSearch).ctx).1 = none →
      (computePerfectArbAmountIfExists env txCtx proposedAmountIn denomIn denomOut orderBookID).2.2.1 =
          txCtx.AddMsg (tryValidate env denomIn denomOut orderBookID proposedAmountIn
            (Int.tdiv (21 * proposedAmountIn) 20) m0 maxRecursionAttemptsArbSearch).ctx false ∧
        TraceEvent.executeCall 1 ∈
          (computePerfectArbAmountIfExists env txCtx proposedAmountIn denomIn denomOut orderBookID).2.2.2) ∧
    ((tryValidate env denomIn denomOut orderBookID proposedAmountIn
        (Int.tdiv (21 * proposedAmountIn) 20) m0 maxRecursionAttemptsArbSearch).ctx.lowValue = false →
      (fillImmediate env (tryValidate env denomIn denomOut orderBookID proposedAmountIn
          (Int.tdiv (21 * proposedAmountIn) 20) m0 maxRecursionAttemptsArbSearch).ctx).1.isSome = true →
      (computePerfectArbAmountIfExists env txCtx proposedAmountIn denomIn denomOut orderBookID).2.2.1 =
        txCtx.AddMsg (tryValidate env denomIn denomOut orderBookID proposedAmountIn
          (Int.tdiv (21 * proposedAmountIn) 20) m0 maxRecursionAttemptsArbSearch).ctx true) ∧
    ((tryValidate env denomIn denomOut orderBookID proposedAmountIn
        (Int.tdiv (21 * proposedAmountIn) 20) m0 maxRecursionAttemptsArbSearch).ctx.lowValue = true →
      (computePerfectArbAmountIfExists env txCtx proposedAmountIn denomIn denomOut orderBookID).2.2.1 =
          txCtx.AddMsg (tryValidate env denomIn denomOut orderBookID proposedAmountIn
            (Int.tdiv (21 * proposedAmountIn) 20) m0 maxRecursionAttemptsArbSearch).ctx false ∧
        ((computePerfectArbAmountIfExists env txCtx proposedAmountIn denomIn denomOut orderBookID).2.2.1).batchMsgs =
          txCtx.batchMsgs ∧
        ∀ n, TraceEvent.executeCall n ∉
          (computePerfectArbAmountIfExists env txCtx proposedAmountIn denomIn denomOut orderBookID).2.2.2) := by
  refine ⟨?_, ?_, ?_⟩
  · intro hlow hfi
    unfold computePerfectArbAmountIfExists
    rw [hv]
    simp only [tryValidate_err_eq_none, Option.isSome_none, Bool.false_eq_true, if_false,
      hlow, hfi, ite_false, Option.isSome_none]
    constructor
    · simp [hfi]
    · simp [hfi, fillImmediate_executes_one]
  · intro hlow hfi
    unfold computePerfectArbAmountIfExists
    rw [hv]
    simp [tryValidate_err_eq_none, hlow, hfi]
  · intro hlow
    unfold computePerfectArbAmountIfExists
    rw [hv]
    simp [tryValidate_err_eq_none, hlow, TxContext.AddMsg]


/-- C8: in each direction, when the wallet balance is below the computed
fillable amount the clamped balance is the amount handed to the arb search
and a warning is logged; otherwise the fillable amount is used unchanged. -/
theorem c8_clamp_to_wallet_balance (env : PluginEnv) (balances : String → Int)
    (txCtx : TxContext) (ob : CanonicalOrderBooksResult) (fa fb : Int)
    (hf : env.getFillableOrders ob.PoolID = .ok (fa, fb)) :
    ((balances ob.Quote < fa →
        TraceEvent.searchCall ob.PoolID (balances ob.Quote) ob.Quote ob.Base ∈
            (processOrderBook env balances txCtx ob).2.2 ∧
          TraceEvent.logWarnClampAsk ob.PoolID ∈ (processOrderBook env balances txCtx ob).2.2) ∧
      (fa ≤ balances ob.Quote →
        TraceEvent.searchCall ob.PoolID fa ob.Quote ob.Base ∈
          (processOrderBook env balances txCtx ob).2.2)) ∧
    ((balances ob.Base < fb →
        TraceEvent.searchCall ob.PoolID (balances ob.Base) ob.Base ob.Quote ∈
            (processOrderBook env balances txCtx ob).2.2 ∧
          TraceEvent.logWarnClampBid ob.PoolID ∈ (processOrderBook env balances txCtx ob).2.2) ∧
      (fb ≤ balances ob.Base →
        TraceEvent.searchCall ob.PoolID fb ob.Base ob.Quote ∈
          (processOrderBook env balances txCtx ob).2.2)) := by
  refine ⟨⟨?_, ?_⟩, ⟨?_, ?_⟩⟩
  · intro hcl
    simp only [processOrderBook, hf]
    simp [hcl, List.mem_append]
  · intro hcl
    have hnot : ¬ (balances ob.Quote < fa) := not_lt.mpr hcl
    simp only [processOrderBook, hf]
    simp [hnot, List.mem_append]
  · intro hcl
    simp only [processOrderBook, hf]
    simp [hcl, List.mem_append]
  · intro hcl
    have hnot : ¬ (balances ob.Base < fb) := not_lt.mpr hcl
    simp only [processOrderBook, hf]
    simp [hnot, List.mem_append]


lemma fetchTicks_failure_detected (fT : Nat → Option String) (updated : List Nat) :
    ∀ (obs : List CanonicalOrderBooksResult) (ob : CanonicalOrderBooksResult) (e : String),
      ob ∈ obs → ob.PoolID ∈ updated → fT ob.PoolID = some e →
      (fetchTicksForModifiedOrderbooks fT updated obs).1.isSome = true := by
  intro obs
  induction obs with
  | nil => intro ob e hmem _ _; cases hmem
  | cons hd tl ih =>
    intro ob e hmem hupd herr
    simp only [fetchTicksForModifiedOrderbooks]
    rcases List.mem_cons.mp hmem with heq | htl
    · subst heq
      rw [if_pos hupd, herr]
      rfl
    · by_cases hin : hd.PoolID ∈ updated
      · rw [if_pos hin]
        cases hfd : fT hd.PoolID with
        | some e2 => rfl
        | none => exact ih ob e htl hupd herr
      · rw [if_neg hin]
        exact ih ob e htl hupd herr

lemma fetchTicks_trace_shape (fT : Nat → Option String) (updated : List Nat) :
    ∀ (obs : List CanonicalOrderBooksResult) (ev : TraceEvent),
      ev ∈ (fetchTicksForModifiedOrderbooks fT updated obs).2 →
      (∃ p, ev = TraceEvent.tickFetch p) ∨ (∃ p, ev = TraceEvent.logErrFetchTicks p) := by
  intro obs
  induction obs with
  | nil => intro ev h; simp [fetchTicksForModifiedOrderbooks] at h
  | cons hd tl ih =>
    intro ev h
    simp only [fetchTicksForModifiedOrderbooks] at h
    by_cases hin : hd.PoolID ∈ updated
    · rw [if_pos hin] at h
      cases hfd : fT hd.PoolID with
      | some e =>
        rw [hfd] at h
        rcases List.mem_cons.mp h with h1 | h2
        · exact Or.inl ⟨hd.PoolID, h1⟩
        · rcases List.mem_cons.mp h2 with h3 | h4
          · exact Or.inr ⟨hd.PoolID, h3⟩
          · exact ih ev h4
      | none =>
        rw [hfd] at h
        rcases List.mem_cons.mp h with h1 | h2
        · exact Or.inl ⟨hd.PoolID, h1⟩
        · exact ih ev h2
    · rw [if_neg hin] at h
      exact ih ev h

/-- C3 (amended): a failing tick refresh makes the refresh step itself report
an error (fail-fast inside `fetchTicksForModifiedOrderbooks`), but
`ProcessEndBlock` discards that error: its error result and final flag are
independent of the tick fetcher, so the block is not aborted. -/
theorem c3_tick_refresh_error_discarded :
    (∀ (fT : Nat → Option String) (updated : List Nat)
        (obs : List CanonicalOrderBooksResult) (ob : CanonicalOrderBooksResult) (e : String),
        ob ∈ obs → ob.PoolID ∈ updated → fT ob.PoolID = some e →
        (fetchTicksForModifiedOrderbooks fT updated obs).1.isSome = true) ∧
    (∀ (env : PluginEnv) (fT gT : Nat → Option String) (flag : Bool)
        (blockHeight : Nat) (pools : List Nat),
        (ProcessEndBlock env fT flag blockHeight pools).1 =
            (ProcessEndBlock env gT flag blockHeight pools).1 ∧
          (ProcessEndBlock env fT flag blockHeight pools).2.1 =
            (ProcessEndBlock env gT flag blockHeight pools).2.1) := by
  constructor
  · intro fT updated obs ob e hmem hupd herr
    exact fetchTicks_failure_detected fT updated obs ob e hmem hupd herr
  · intro env fT gT flag blockHeight pools
    cases hreg : env.registry with
    | error e => simp [ProcessEndBlock, hreg]
    | ok obs =>
      cases flag <;> simp [ProcessEndBlock, hreg]


lemma skipped_call_result (env : PluginEnv) (fT : Nat → Option String)
    (blockHeight : Nat) (pools : List Nat) (obs : List CanonicalOrderBooksResult)
    (hreg : env.registry = .ok obs) :
    ProcessEndBlock env fT true blockHeight pools =
      (none, true,
        (fetchTicksForModifiedOrderbooks fT pools obs).2 ++ [TraceEvent.logAlreadyInProgress]) := by
  simp [ProcessEndBlock, hreg]

/-- C4 (amended): a call that finds the single-flight flag already set still
fetches the pool registry and refreshes ticks, but performs no balance or
price fetch, no arb search, no simulation and no execution, returns nil, and
leaves the flag set; a call that acquires the flag resets it to false on every
exit path. -/
theorem c4_single_flight_gate (env : PluginEnv) (fT : Nat → Option String)
    (blockHeight : Nat) (pools : List Nat) (obs : List CanonicalOrderBooksResult)
    (hreg : env.registry = .ok obs) :
    (ProcessEndBlock env fT true blockHeight pools).1 = none ∧
    (ProcessEndBlock env fT true blockHeight pools).2.1 = true ∧
    TraceEvent.balancesFetch ∉ (ProcessEndBlock env fT true blockHeight pools).2.2 ∧
    TraceEvent.pricesFetch ∉ (ProcessEndBlock env fT true blockHeight pools).2.2 ∧
    (∀ n, TraceEvent.simulateCall n ∉ (ProcessEndBlock env fT true blockHeight pools).2.2) ∧
    (∀ n, TraceEvent.executeCall n ∉ (ProcessEndBlock env fT true blockHeight pools).2.2) ∧
    (∀ pid a dIn dOut,
      TraceEvent.searchCall pid a dIn dOut ∉ (ProcessEndBlock env fT true blockHeight pools).2.2) ∧
    (ProcessEndBlock env fT false blockHeight pools).2.1 = false := by
  rw [skipped_call_result env fT blockHeight pools obs hreg]
  have shape := fetchTicks_trace_shape fT pools obs
  refine ⟨rfl, rfl, ?_, ?_, ?_, ?_, ?_, ?_⟩
  · intro hmem
    rcases List.mem_append.mp hmem with h1 | h2
    · rcases shape _ h1 with ⟨p, hp⟩ | ⟨p, hp⟩ <;> cases hp
    · simp at h2
  · intro hmem
    rcases List.mem_append.mp hmem with h1 | h2
    · rcases shape _ h1 with ⟨p, hp⟩ | ⟨p, hp⟩ <;> cases hp
    · simp at h2
  · intro n hmem
    rcases List.mem_append.mp hmem with h1 | h2
    · rcases shape _ h1 with ⟨p, hp⟩ | ⟨p, hp⟩ <;> cases hp
    · simp at h2
  · intro n hmem
    rcases List.mem_append.mp hmem with h1 | h2
    · rcases shape _ h1 with ⟨p, hp⟩ | ⟨p, hp⟩ <;> cases hp
    · simp at h2
  · intro pid a dIn dOut hmem
    rcases List.mem_append.mp hmem with h1 | h2
    · rcases shape _ h1 with ⟨p, hp⟩ | ⟨p, hp⟩ <;> cases hp
    · simp at h2
  · simp [ProcessEndBlock, hreg]


/-- C1: evaluation of the failing batch run. Two messages are batched, batch
simulation fails, and the two fallback attempts each re-simulate the full
two-message batch (the fresh single-message context built in the loop is
never passed to `tryFill`, which operates on the block context); both
failures are logged and the call still returns nil. -/
theorem c1_fallback_reuses_full_batch :
    (ProcessEndBlock envExecFail ticksOk false 100 []).1 = none ∧
    simCalls (ProcessEndBlock envExecFail ticksOk false 100 []).2.2 = [2, 2, 2] ∧
    (ProcessEndBlock envExecFail ticksOk false 100 []).2.2.count
        TraceEvent.logErrFillIndividualMsg = 2 := by
  decide

/-- C2 counterexample: a low-value winner is not added to the pending batch;
it is only recorded as a used pool, so the final batch does not contain it. -/
theorem c2_lowvalue_winner_not_batched :
    (tryValidate envLowValue dQuote1 dBase1 1 100 (Int.tdiv (21 * 100) 20) (mkLowMsg 1 100)
        maxRecursionAttemptsArbSearch).ctx.lowValue = true ∧
    ((computePerfectArbAmountIfExists envLowValue TxContext.New 100 dQuote1 dBase1 1).2.2.1).batchMsgs = [] ∧
    ((computePerfectArbAmountIfExists envLowValue TxContext.New 100 dQuote1 dBase1 1).2.2.1).usedPoolIDs = [1] := by
  decide

/-- C2 witness: with a high-value winner whose immediate execution fails, the
message is added to the pending batch. -/
theorem c2_routing_witness :
    (computePerfectArbAmountIfExists envExecFail TxContext.New 100 dQuote1 dBase1 1).2.2.1 =
      TxContext.New.AddMsg
        (tryValidate envExecFail dQuote1 dBase1 1 100 (Int.tdiv (21 * 100) 20) (mkArbMsg 1 100)
          maxRecursionAttemptsArbSearch).ctx true :=
  (c2_immediate_fill_and_lowvalue_routing envExecFail TxContext.New 100 dQuote1 dBase1 1
    (mkArbMsg 1 100) (by rfl)).2.1 (by decide) (by decide)

/-- C3 counterexample: pool 1 tick refresh fails, yet the call returns nil,
fetches balances and still attempts the batch fill. -/
theorem c3_failing_tick_does_not_abort :
    (ProcessEndBlock envExecFail ticksFail1 false 7 [1]).1 = none ∧
    TraceEvent.logErrFetchTicks 1 ∈ (ProcessEndBlock envExecFail ticksFail1 false 7 [1]).2.2 ∧
    TraceEvent.balancesFetch ∈ (ProcessEndBlock envExecFail ticksFail1 false 7 [1]).2.2 ∧
    TraceEvent.simulateCall 2 ∈ (ProcessEndBlock envExecFail ticksFail1 false 7 [1]).2.2 := by
  decide

/-- C3 witness: the refresh step reports the failure, and the error result of
the whole call is unaffected by the tick fetcher. -/
theorem c3_refresh_witness :
    (fetchTicksForModifiedOrderbooks ticksFail1 [1] [obA]).1.isSome = true ∧
    (ProcessEndBlock envExecFail ticksFail1 false 7 [1]).1 =
      (ProcessEndBlock envExecFail ticksOk false 7 [1]).1 :=
  ⟨c3_tick_refresh_error_discarded.1 ticksFail1 [1] [obA] obA eTick (by decide) (by decide)
      (by rfl),
    (c3_tick_refresh_error_discarded.2 envExecFail ticksFail1 ticksOk false 7 [1]).1⟩

/-- C4 counterexample: a call skipped by the single-flight flag still refreshes
ticks for updated pools, so the skipped call is not side-effect free. -/
theorem c4_skipped_call_still_fetches_ticks :
    (ProcessEndBlock envExecFail ticksOk true 7 [1]).1 = none ∧
    TraceEvent.tickFetch 1 ∈ (ProcessEndBlock envExecFail ticksOk true 7 [1]).2.2 := by
  decide

/-- C4 witness: the skipped call returns nil, and the acquiring call resets
the flag. -/
theorem c4_gate_witness :
    (ProcessEndBlock envExecFail ticksOk true 7 [1]).1 = none ∧
    (ProcessEndBlock envExecFail ticksOk false 7 [1]).2.1 = false :=
  ⟨(c4_single_flight_gate envExecFail ticksOk 7 [1] [obA, obB] (by rfl)).1,
    (c4_single_flight_gate envExecFail ticksOk 7 [1] [obA, obB] (by rfl)).2.2.2.2.2.2.2⟩

/-- C5 witness at a concrete environment and proposed amount 100. -/
theorem c5_search_witness :
    (100 : Int) ≤ (computePerfectArbAmountIfExists envExecFail TxContext.New 100 dQuote1 dBase1 1).1 ∧
    20 * (computePerfectArbAmountIfExists envExecFail TxContext.New 100 dQuote1 dBase1 1).1 ≤
        21 * 100 ∧
    (mkArbMsg 1 100).maxFeeCap ≤
      (tryValidate envExecFail dQuote1 dBase1 1 100 (Int.tdiv (21 * 100) 20) (mkArbMsg 1 100)
          maxRecursionAttemptsArbSearch).ctx.maxFeeCap :=
  c5_binary_search_monotonicity envExecFail TxContext.New 100 dQuote1 dBase1 1 (mkArbMsg 1 100)
    (by decide) (by rfl)

/-- C6 witness: the result of the bounded search at a concrete environment is
itself a successful validation. -/
theorem c6_search_witness :
    envExecFail.validateArb
        (tryValidate envExecFail dQuote1 dBase1 1 100 105 (mkArbMsg 1 100)
          maxRecursionAttemptsArbSearch).amount dQuote1 dBase1 1 =
      .ok (tryValidate envExecFail dQuote1 dBase1 1 100 105 (mkArbMsg 1 100)
          maxRecursionAttemptsArbSearch).ctx :=
  (c6_search_terminates_within_budget envExecFail dQuote1 dBase1 1 100 105 (mkArbMsg 1 100)).2.2
    (by decide) (by decide) (by rfl)

/-- C8 witness: an under-funded wallet clamps the ask amount to the balance
and logs a warning. -/
theorem c8_clamp_witness :
    TraceEvent.searchCall 1 1 dQuote1 dBase1 ∈
        (processOrderBook envExecFail balOne TxContext.New obA).2.2 ∧
    TraceEvent.logWarnClampAsk 1 ∈ (processOrderBook envExecFail balOne TxContext.New obA).2.2 :=
  (c8_clamp_to_wallet_balance envExecFail balOne TxContext.New obA 100 100 (by rfl)).1.1
    (by decide)

/-- C10 witness: the ask oracle rejects the base-denom direction, and the call
returns the zero amount, the error, an unchanged context and no events. -/
theorem c10_invalid_witness :
    computePerfectArbAmountIfExists envExecFail TxContext.New 100 dBase1 dQuote1 1 =
      (0, some eArb, TxContext.New, []) :=
  c10_invalid_proposed_is_hard_failure envExecFail TxContext.New 100 dBase1 dQuote1 1 eArb
    (by rfl)


/-- C9 witness: a concrete pool contributes both of its denoms to the set. -/
theorem c9_denoms_witness :
    obA.Base ∈ getUniqueOrderbookDenoms [obA] ∧ obA.Quote ∈ getUniqueOrderbookDenoms [obA] :=
  (c9_denom_set_completeness [obA]).2.2 obA (by decide)
